import Mathlib

/-!
# Verification of the chat-route core of the HeavyFingers repository

Shallow embedding of the server-side chat pipeline:
the routing decision engine (`buildRoutingDecisionTier`, `computeHistoryCompression`,
the prompt/tool scoring functions), the attachment MIME sniffing
(`detectMimeFromBinary`), the conversation store (`mergeStoredMessagesPreservingExisting`,
`persistPromptSnapshotBundle`, `ensureConversationRecord`, `appendAssistantCompletion`,
`deleteConversationForUi`), the atomic JSON writer (`atomicWriteJson`) over an
explicit file-system state, and the per-conversation promise-chain lock
(`LockStep` / `ConversationLockStep`), modelled as a labelled transition system.

JS strings are modelled as `List Char` (`JsString`); byte buffers as `List Nat`;
JS numbers at the integer call sites of the source as `Int`/`Nat`.
-/

namespace CarbonChat

/-! ## JavaScript numeric helpers -/

/-- `clampInt(value, min, max)` from the source first rounds a finite JS number and
then clamps it.  Every call site modelled in this file passes a mathematical
integer, where `Math.round` is the identity, so the model clamps an `Int`
(the non-finite fallback branch cannot fire on integers). -/
def clampInt (value lo hi : Int) : Int :=
  if value < lo then lo else if value > hi then hi else value

/-- The clamp as the specification phrases it: `clamp(v, lo, hi) = max lo (min hi v)`. -/
def specClamp (value lo hi : Int) : Int := max lo (min hi value)

/-- `Math.round (num / den)` for `0 ≤ num`, `0 < den`.  JS rounds halves up
(toward `+∞`), which for nonnegative arguments is `⌊num/den + 1/2⌋ = ⌊(2·num + den)/(2·den)⌋`. -/
def jsRoundDiv (num den : Int) : Int := (2 * num + den) / (2 * den)

/-! ## Prompt text model

JS strings are modelled as lists of characters.  `trim`, `toLowerCase`,
`replace(/\s+/g, " ")` and the various counts used by the scoring functions are
implemented directly on the character list. -/

abbrev JsString := List Char

/-- The ASCII whitespace characters matched by the JS `\s` class (the source prompts
relevant here are ASCII; astral whitespace is not modelled). -/
def isJsWhitespace (c : Char) : Bool :=
  c = ' ' || c = '\t' || c = '\n' || c = '\r' || c = '\x0b' || c = '\x0c'

/-- `String.prototype.trim`: drop whitespace from both ends. -/
def jsTrim (s : JsString) : JsString :=
  ((s.dropWhile isJsWhitespace).reverse.dropWhile isJsWhitespace).reverse

/-- `String.prototype.toLowerCase`, per code point (exact for ASCII, which is all the
scoring below inspects). -/
def jsToLowerCase (s : JsString) : JsString := s.map Char.toLower

/-- `replace(/\s+/g, " ")`: collapse every maximal whitespace run to a single space.
The boolean argument records whether the previous character was whitespace. -/
def collapseWhitespace : Bool → JsString → JsString
  | _, [] => []
  | prevWs, c :: rest =>
    if isJsWhitespace c then
      (if prevWs then [] else [' ']) ++ collapseWhitespace true rest
    else c :: collapseWhitespace false rest

/-- Helper for `countWords`: number of maximal runs of non-whitespace characters,
carrying whether we are currently inside such a run. -/
def countWordsGo : Bool → JsString → Nat
  | _, [] => 0
  | inWord, c :: rest =>
    if isJsWhitespace c then countWordsGo false rest
    else (if inWord then 0 else 1) + countWordsGo true rest

/-- `normalized.split(/\s+/).filter(Boolean).length`: the number of maximal
non-whitespace runs. -/
def countWords (s : JsString) : Nat := countWordsGo false s

/-! ## Routing decision engine (src/app/api/conversation/route.ts) -/

inductive RoutingTier
  | light
  | tooling
  | heavy
deriving DecidableEq, Repr, Fintype

structure RoutingToolSignals where
  webSearchEnabled : Bool
  deepSearchEnabled : Bool
  attachmentCount : Nat
deriving DecidableEq, Repr

/-- `scorePromptLength` (route.ts:278): thresholds on character, word, newline and
question-mark counts of the trimmed, lowercased prompt. -/
def scorePromptLength (prompt : JsString) : Nat :=
  let normalized := jsToLowerCase (jsTrim prompt)
  if normalized = [] then 0
  else
    let charCount := normalized.length
    let wordCount := countWords normalized
    let newlineCount := normalized.count '\n'
    let questionCount := normalized.count '?'
    (if charCount > 180 then 1 else 0) +
    (if charCount > 420 then 1 else 0) +
    (if charCount > 760 then 1 else 0) +
    (if charCount > 1300 then 1 else 0) +
    (if wordCount > 40 then 1 else 0) +
    (if wordCount > 90 then 1 else 0) +
    (if wordCount > 170 then 1 else 0) +
    (if newlineCount ≥ 3 then 1 else 0) +
    (if newlineCount ≥ 4 then 1 else 0) +
    (if newlineCount ≥ 9 then 1 else 0) +
    (if questionCount ≥ 2 then 1 else 0)

/-- `scoreToolComplexity` (route.ts:347). -/
def scoreToolComplexity (tools : RoutingToolSignals) : Nat :=
  (if tools.webSearchEnabled then 2 else 0) +
  (if tools.deepSearchEnabled then 3 else 0) +
  (if tools.webSearchEnabled && tools.deepSearchEnabled then 1 else 0) +
  (if tools.attachmentCount > 0 then 1 else 0) +
  (if tools.attachmentCount > 1 then 1 else 0) +
  (if tools.attachmentCount > 3 then 1 else 0)

/-- `scorePromptComplexity` (route.ts:372): sum of the length, instruction and tool
sub-scores, `0` on a blank prompt.  The instruction sub-score
(`scoreInstructionComplexity`, a regex-bucket count) is abstracted as the parameter
`instructionScore`; every theorem below quantifies over all of its values, so each
theorem in particular holds for the value the source computes. -/
def scorePromptComplexity (instructionScore : Nat) (prompt : JsString)
    (tools : RoutingToolSignals) : Nat :=
  if jsTrim prompt = [] then 0
  else scorePromptLength prompt + instructionScore + scoreToolComplexity tools

/-- `toolingThreshold` of `buildRoutingDecision` (route.ts:433). -/
def toolingThresholdOf (sensitivity : Int) : Int :=
  clampInt (9 - sensitivity / 20) 4 9

/-- `heavyThreshold` of `buildRoutingDecision` (route.ts:434). -/
def heavyThresholdOf (sensitivity : Int) : Int :=
  clampInt (17 - sensitivity / 10) 7 17

/-- `hasAnyToolingSignals` of `buildRoutingDecision` (route.ts:435). -/
def hasAnyToolingSignals (tools : RoutingToolSignals) : Bool :=
  tools.webSearchEnabled || tools.deepSearchEnabled || decide (tools.attachmentCount > 0)

/-- The tier selection of `buildRoutingDecision` (route.ts:423-444).  The remaining
fields of the returned `RoutingDecision` (model names, token budget, history
parameters) are derived from the tier; the history parameters are modelled by
`computeHistoryCompression` below. -/
def buildRoutingDecisionTier (complexity : Nat) (tools : RoutingToolSignals)
    (routingSensitivity : Int) : RoutingTier :=
  let sensitivity := clampInt routingSensitivity 0 100
  let toolingThreshold := toolingThresholdOf sensitivity
  let heavyThreshold := heavyThresholdOf sensitivity
  let heavyBiasForDeepSearch : Int := if tools.deepSearchEnabled then 2 else 0
  if (complexity : Int) ≥ heavyThreshold - heavyBiasForDeepSearch then .heavy
  else if hasAnyToolingSignals tools || decide ((complexity : Int) ≥ toolingThreshold) then .tooling
  else .light

/-- The tier selection exactly as claim C2 words it: thresholds
`clamp(9 - floor(s/20), 4, 9)` and `clamp(17 - floor(s/10), 7, 17)` (written with
`max`/`min`), heavy when `complexity ≥ heavyThreshold - 2·[deep search]`, else
tooling when a tool signal is present or `complexity ≥ toolingThreshold`, else light. -/
def specRoutingTier (complexity : Nat) (tools : RoutingToolSignals) (s : Int) : RoutingTier :=
  let toolingThreshold := specClamp (9 - s / 20) 4 9
  let heavyThreshold := specClamp (17 - s / 10) 7 17
  let deepSearchBias : Int := if tools.deepSearchEnabled then 2 else 0
  if (complexity : Int) ≥ heavyThreshold - deepSearchBias then .heavy
  else if (tools.webSearchEnabled || tools.deepSearchEnabled ||
      decide (tools.attachmentCount > 0)) || decide ((complexity : Int) ≥ toolingThreshold) then
    .tooling
  else .light

/-! ## History compression (route.ts:383-421) -/

def MIN_HISTORY_WINDOW_MESSAGES : Int := 6
def MAX_HISTORY_WINDOW_MESSAGES : Int := 24
def MIN_HISTORY_SUMMARY_CHARS : Int := 900
def MAX_HISTORY_SUMMARY_CHARS : Int := 4200

structure HistoryCompressionResult where
  historyWindowMessages : Int
  historySummaryMaxChars : Int
deriving DecidableEq, Repr

/-- `computeHistoryCompression` (route.ts:383). -/
def computeHistoryCompression (tier : RoutingTier) (historyCompression : Int) :
    HistoryCompressionResult :=
  let compression := clampInt historyCompression 0 100
  let baseWindow := MAX_HISTORY_WINDOW_MESSAGES -
    jsRoundDiv ((MAX_HISTORY_WINDOW_MESSAGES - MIN_HISTORY_WINDOW_MESSAGES) * compression) 100
  let baseSummaryChars := MAX_HISTORY_SUMMARY_CHARS -
    jsRoundDiv ((MAX_HISTORY_SUMMARY_CHARS - MIN_HISTORY_SUMMARY_CHARS) * compression) 100
  match tier with
  | .light =>
    ⟨clampInt (baseWindow - 2) MIN_HISTORY_WINDOW_MESSAGES MAX_HISTORY_WINDOW_MESSAGES,
     clampInt (baseSummaryChars - 350) MIN_HISTORY_SUMMARY_CHARS MAX_HISTORY_SUMMARY_CHARS⟩
  | .heavy =>
    ⟨clampInt (baseWindow + 3) MIN_HISTORY_WINDOW_MESSAGES MAX_HISTORY_WINDOW_MESSAGES,
     clampInt (baseSummaryChars + 550) MIN_HISTORY_SUMMARY_CHARS MAX_HISTORY_SUMMARY_CHARS⟩
  | .tooling =>
    ⟨clampInt baseWindow MIN_HISTORY_WINDOW_MESSAGES MAX_HISTORY_WINDOW_MESSAGES,
     clampInt baseSummaryChars MIN_HISTORY_SUMMARY_CHARS MAX_HISTORY_SUMMARY_CHARS⟩

/-- The history parameters exactly as claim C6 words them: base window
`24 - round(18·c/100)`, base summary budget `4200 - round(3300·c/100)`, light
`−2` messages / `−350` chars, heavy `+3` messages / `+550` chars, tooling
unmodified, every result clamped to `[6,24]` and `[900,4200]`. -/
def specHistoryParams (tier : RoutingTier) (c : Int) : HistoryCompressionResult :=
  let baseWindow := 24 - jsRoundDiv (18 * c) 100
  let baseSummary := 4200 - jsRoundDiv (3300 * c) 100
  match tier with
  | .light => ⟨specClamp (baseWindow - 2) 6 24, specClamp (baseSummary - 350) 900 4200⟩
  | .heavy => ⟨specClamp (baseWindow + 3) 6 24, specClamp (baseSummary + 550) 900 4200⟩
  | .tooling => ⟨specClamp baseWindow 6 24, specClamp baseSummary 900 4200⟩

/-! ## MIME sniffing (`detectMimeFromBinary`, route.ts:637-669)

Buffers are lists of byte values.  `buf.toString("utf8") === "%PDF-"` holds of a
5-byte buffer exactly when the bytes are the ASCII codes of `%PDF-` (UTF-8 is
injective on valid sequences and invalid bytes decode to replacement characters,
never to ASCII), so the PDF comparison is modelled as byte equality.
`buf.toString("ascii")`, by contrast, first clears the high bit of every byte
(documented Node `Buffer` behaviour), which `asciiByte` models. -/

abbrev ByteBuffer := List Nat

/-- Node `ascii` decoding of one byte: the high bit is cleared. -/
def asciiByte (b : Nat) : Nat := b % 128

/-- ASCII codes of `%PDF-`. -/
def pdfSignature : ByteBuffer := [0x25, 0x50, 0x44, 0x46, 0x2D]

/-- The 8-byte PNG signature. -/
def pngSignature : ByteBuffer := [0x89, 0x50, 0x4E, 0x47, 0x0D, 0x0A, 0x1A, 0x0A]

/-- ASCII codes of `RIFF`. -/
def riffSignature : ByteBuffer := [0x52, 0x49, 0x46, 0x46]

/-- ASCII codes of `WEBP`. -/
def webpSignature : ByteBuffer := [0x57, 0x45, 0x42, 0x50]

/-- `detectMimeFromBinary` (route.ts:637).  The PDF branch compares
`subarray(0,5).toString("utf8")` with `"%PDF-"` (exact bytes), the PNG and JPEG
branches compare indexed bytes under a length guard, and the WEBP branch compares
`subarray(0,4).toString("ascii")` and `subarray(8,12).toString("ascii")` with
`"RIFF"` / `"WEBP"`, i.e. the bytes with their high bit cleared. -/
def detectMimeFromBinary (decoded : ByteBuffer) : Option String :=
  if 5 ≤ decoded.length ∧ decoded.take 5 = pdfSignature then
    some "application/pdf"
  else if 8 ≤ decoded.length ∧ decoded.get? 0 = some 0x89 ∧ decoded.get? 1 = some 0x50 ∧
      decoded.get? 2 = some 0x4E ∧ decoded.get? 3 = some 0x47 ∧ decoded.get? 4 = some 0x0D ∧
      decoded.get? 5 = some 0x0A ∧ decoded.get? 6 = some 0x1A ∧ decoded.get? 7 = some 0x0A then
    some "image/png"
  else if 3 ≤ decoded.length ∧ decoded.get? 0 = some 0xFF ∧ decoded.get? 1 = some 0xD8 ∧
      decoded.get? 2 = some 0xFF then
    some "image/jpeg"
  else if 12 ≤ decoded.length ∧ (decoded.take 4).map asciiByte = riffSignature ∧
      ((decoded.drop 8).take 4).map asciiByte = webpSignature then
    some "image/webp"
  else
    none

/-- `detectMimeFromBinary` exactly as claim C9 words it: PDF when the buffer begins
with the `%PDF-` signature, PNG for the 8-byte PNG signature, JPEG for the
`FF D8 FF` prefix, WEBP for a literal `RIFF....WEBP` header, `none` otherwise. -/
def specDetectMime (decoded : ByteBuffer) : Option String :=
  if decoded.take 5 = pdfSignature then some "application/pdf"
  else if decoded.take 8 = pngSignature then some "image/png"
  else if decoded.take 3 = [0xFF, 0xD8, 0xFF] then some "image/jpeg"
  else if decoded.take 4 = riffSignature ∧ (decoded.drop 8).take 4 = webpSignature then
    some "image/webp"
  else none

/-- Claim C9 as amended: the WEBP comparison reads the bytes through Node's `ascii`
decoding, which clears the high bit of each byte; the other three signatures are
exact. -/
def specDetectMimeAmended (decoded : ByteBuffer) : Option String :=
  if decoded.take 5 = pdfSignature then some "application/pdf"
  else if decoded.take 8 = pngSignature then some "image/png"
  else if decoded.take 3 = [0xFF, 0xD8, 0xFF] then some "image/jpeg"
  else if (decoded.take 4).map asciiByte = riffSignature ∧
      ((decoded.drop 8).take 4).map asciiByte = webpSignature then
    some "image/webp"
  else none

/-! ## Conversation store (src/lib/conversation-store, src/unnamed/part_003)

Stored bundles are modelled with the fields the verified operations read or
write; the constant `format`/`encoding` header, the `name_hash_sha256` digest and
the untouched `filepaths`/`tools` auxiliaries are elided.  Bundles held in the
store are assumed already in the normal form `normalizeBundle` produces on load. -/

inductive StoredRole
  | user
  | assistant
deriving DecidableEq, Repr

structure StoredMessage where
  id : String
  role : StoredRole
  text : String
  created_at : String
deriving DecidableEq, Repr

structure ConversationMeta where
  id : String
  name : String
  created_at : String
  updated_at : String
  userId : Option String
  userName : Option String
deriving DecidableEq, Repr

structure ModelInfo where
  kind : String
  name : String
deriving DecidableEq, Repr

structure ConversationBundle where
  conversation : ConversationMeta
  model : ModelInfo
  messages : List StoredMessage
  notes : String
deriving DecidableEq, Repr

def DEFAULT_MODEL_KIND : String := "dedalus"
def DEFAULT_MODEL_NAME : String := "anthropic/claude-opus-4-5"

/-- A run of `[a-zA-Z0-9_-]`, the characters conversation-id sanitization keeps. -/
def isIdChar (c : Char) : Bool := c.isAlphanum || c = '_' || c = '-'

/-- `value.trim().replace(/[^a-zA-Z0-9_-]/g, "")`, `none` when nothing is left
(a falsy input string gives `none` through the same computation). -/
def sanitizeIdString (value : String) : Option String :=
  let s := String.mk ((jsTrim value.toList).filter isIdChar)
  if s = "" then none else some s

/-- `sanitizeConversationId` (part_003:80). -/
def sanitizeConversationId (value : Option String) : Option String :=
  value.bind sanitizeIdString

/-- `sanitizeUserId` (part_003:133): non-strings become `null`; otherwise the same
trim-and-filter as conversation ids. -/
def sanitizeUserId (value : Option String) : Option String :=
  value.bind sanitizeIdString

/-- `sanitizeUserName` (part_003:141): trim, collapse inner whitespace, `null` when
blank, else the first 120 characters. -/
def sanitizeUserName (value : Option String) : Option String :=
  match value with
  | none => none
  | some v =>
    let normalized := collapseWhitespace false (jsTrim v.toList)
    if normalized = [] then none else some (String.mk (normalized.take 120))

/-- The append loop of `mergeStoredMessagesPreservingExisting` (part_003:273-280):
walk the incoming messages, skipping any whose id is already seen and recording the
id of each appended message. -/
def mergeAppend (seenMessageIds : List String) : List StoredMessage → List StoredMessage
  | [] => []
  | m :: rest =>
    if m.id ∈ seenMessageIds then mergeAppend seenMessageIds rest
    else m :: mergeAppend (m.id :: seenMessageIds) rest

/-- `mergeStoredMessagesPreservingExisting` (part_003:258): return incoming verbatim
when nothing is stored, return stored verbatim when nothing comes in, otherwise keep
the stored messages and append incoming messages with unseen ids. -/
def mergeStoredMessagesPreservingExisting
    (existingMessages incomingMessages : List StoredMessage) : List StoredMessage :=
  if existingMessages = [] then incomingMessages
  else if incomingMessages = [] then existingMessages
  else existingMessages ++ mergeAppend (existingMessages.map (fun m => m.id)) incomingMessages

structure PersistOptions where
  modelName : Option String
  userId : Option String
  userName : Option String
deriving Repr

/-- The bundle update performed by `persistPromptSnapshot` (part_003:564-611) on the
record it loaded or created: merge the messages, overwrite the model when a
non-blank model name is supplied, overwrite user id/name when they sanitize to
something non-empty, and bump `updated_at` to `now`.  `incomingMessages` are the
UI messages already normalized by `toStoredMessage` (the conversion keeps only
user/assistant messages with non-blank text). -/
def persistPromptSnapshotBundle (bundle : ConversationBundle)
    (incomingMessages : List StoredMessage) (opts : PersistOptions) (now : String) :
    ConversationBundle :=
  let modelName := String.mk (jsTrim (opts.modelName.getD "").toList)
  let userId := sanitizeUserId opts.userId
  let userName := sanitizeUserName opts.userName
  { bundle with
    messages := mergeStoredMessagesPreservingExisting bundle.messages incomingMessages
    model := if modelName ≠ "" then ⟨DEFAULT_MODEL_KIND, modelName⟩ else bundle.model
    conversation := { bundle.conversation with
      userId := userId.or bundle.conversation.userId
      userName := userName.or bundle.conversation.userName
      updated_at := now } }

/-! ### File-backed store as an association list `conversationId ↦ bundle`

One entry per `<conversationId>.json` file in the conversations directory. -/

abbrev ConversationStore := List (String × ConversationBundle)

def storeLookup (store : ConversationStore) (id : String) : Option ConversationBundle :=
  (store.find? (fun e => e.1 = id)).map (fun e => e.2)

/-- Writing `<id>.json`: replace the entry when present, append it otherwise. -/
def storeSave (store : ConversationStore) (id : String) (b : ConversationBundle) :
    ConversationStore :=
  if store.any (fun e => e.1 = id) then
    store.map (fun e => if e.1 = id then (id, b) else e)
  else store ++ [(id, b)]

/-- Digits-to-number helper for the `parseInt` calls on `conversation<N>` names. -/
def digitsToNat (s : List Char) : Nat :=
  s.foldl (fun acc c => 10 * acc + (c.toNat - '0'.toNat)) 0

/-- `getConversationIndex` (part_003:94): `/^conversation(\d+)$/i`. -/
def getConversationIndex (conversationId : String) : Option Nat :=
  let cs := conversationId.toList
  let front := (cs.take 12).map Char.toLower
  let rest := cs.drop 12
  if front = "conversation".toList ∧ rest ≠ [] ∧ rest.all Char.isDigit then
    some (digitsToNat rest)
  else none

/-- The case-sensitive `/^conversation(\d+)\.json$/` of `CONVERSATION_FILE_PATTERN`,
applied to the id part of a file name. -/
def strictConversationIndex (conversationId : String) : Option Nat :=
  let cs := conversationId.toList
  let front := cs.take 12
  let rest := cs.drop 12
  if front = "conversation".toList ∧ rest ≠ [] ∧ rest.all Char.isDigit then
    some (digitsToNat rest)
  else none

/-- `defaultConversationTitle` (part_003:104). -/
def defaultConversationTitle (conversationId : String) : String :=
  match getConversationIndex conversationId with
  | some n => "Conversation " ++ toString n
  | none => conversationId

/-- `createConversationBundle` (part_003:200). -/
def createConversationBundle (conversationId : String) (now : String) : ConversationBundle :=
  { conversation :=
      { id := conversationId
        name := defaultConversationTitle conversationId
        created_at := now
        updated_at := now
        userId := none
        userName := none }
    model := ⟨DEFAULT_MODEL_KIND, DEFAULT_MODEL_NAME⟩
    messages := []
    notes := "" }

/-- `getNextConversationId` (part_003:485): one more than the largest
`conversation<N>` index among the stored files. -/
def getNextConversationId (store : ConversationStore) : String :=
  let largest := store.foldl
    (fun acc e =>
      match strictConversationIndex e.1 with
      | some n => max acc n
      | none => acc) 0
  "conversation" ++ toString (largest + 1)

structure ConversationRecord where
  conversationId : String
  bundle : ConversationBundle
  store : ConversationStore
deriving Repr

/-- `ensureConversationRecord` (part_003:500): load the bundle at the sanitized id,
create (and save) a fresh one when the file is missing, or allocate the next
sequential id when no usable id was supplied.  File-system failures other than
a missing file are outside the model. -/
def ensureConversationRecord (store : ConversationStore)
    (preferredConversationId : Option String) (now : String) : ConversationRecord :=
  match sanitizeConversationId preferredConversationId with
  | some sid =>
    match storeLookup store sid with
    | some bundle => ⟨sid, bundle, store⟩
    | none =>
      let bundle := createConversationBundle sid now
      ⟨sid, bundle, storeSave store sid bundle⟩
  | none =>
    let cid := getNextConversationId store
    let bundle := createConversationBundle cid now
    ⟨cid, bundle, storeSave store cid bundle⟩

inductive StoreError
  | missingId
  | notFound
  | lastConversation
  | emptyName
deriving DecidableEq, Repr

/-- `ensureExistingConversationRecord` (part_003:530): like
`ensureConversationRecord` but a missing file is a NotFound-class error and an
unusable id a missing-id error. -/
def ensureExistingConversationRecord (store : ConversationStore)
    (requiredConversationId : Option String) : Except StoreError ConversationRecord :=
  match sanitizeConversationId requiredConversationId with
  | none => .error .missingId
  | some sid =>
    match storeLookup store sid with
    | some bundle => .ok ⟨sid, bundle, store⟩
    | none => .error .notFound

/-- The duplicate check of `appendAssistantCompletion` (part_003:709): the last
stored message is an assistant message with exactly this text. -/
def isDuplicateAssistantTail (msgs : List StoredMessage) (text : String) : Bool :=
  match msgs.getLast? with
  | some m => decide (m.role = StoredRole.assistant) && decide (m.text = text)
  | none => false

/-- `appendAssistantCompletion` (part_003:701): no-op on blank text; otherwise load
or create the record, skip an exact immediate repeat of the last assistant message,
else append the new assistant message and save.  `newMessageId` stands for the
`createMessageId("assistant")` timestamp/UUID value. -/
def appendAssistantCompletion (store : ConversationStore) (conversationId : String)
    (text : String) (newMessageId : String) (now : String) : ConversationStore :=
  if jsTrim text.toList = [] then store
  else
    let r := ensureConversationRecord store (some conversationId) now
    if isDuplicateAssistantTail r.bundle.messages text then r.store
    else
      let updated := { r.bundle with
        messages := r.bundle.messages ++ [⟨newMessageId, .assistant, text, now⟩]
        conversation := { r.bundle.conversation with updated_at := now } }
      storeSave r.store r.conversationId updated

/-! ### Delete (`deleteConversationForUi`, part_003:657-698)

The function re-lists the directory, so it is modelled over the
recency-sorted listing `listConversationsForUi` produces (one summary per file,
sorted by descending `updatedAt` timestamp). -/

structure ConversationSummary where
  conversationId : String
  title : String
  updatedAt : String
  messageCount : Nat
deriving DecidableEq, Repr

/-- One branch of the next-active-id ternary: the candidate exists, is not the
deleted conversation, and is among the remaining ids. -/
def candidateUsable (candidate : Option String) (sid : String)
    (remainingIds : List String) : Bool :=
  match candidate with
  | some c => decide (c ≠ sid) && decide (c ∈ remainingIds)
  | none => false

/-- `deleteConversationForUi` (part_003:657): refuse an unusable id, a missing
conversation, or deleting the last conversation; otherwise remove the file and pick
the next active conversation (caller-preferred id, else the global active id, else
the first remaining conversation).  Returns the remaining listing together with the
id handed to `loadConversationForUi`. -/
def deleteConversationForUi (conversations : List ConversationSummary)
    (conversationId : Option String) (preferredActiveConversationId : Option String)
    (globalActiveId : Option String) :
    Except StoreError (List ConversationSummary × Option String) :=
  match sanitizeConversationId conversationId with
  | none => .error .missingId
  | some sid =>
    if ¬ conversations.any (fun c => c.conversationId = sid) then .error .notFound
    else if conversations.length ≤ 1 then .error .lastConversation
    else
      let remainingConversations := conversations.filter (fun c => c.conversationId ≠ sid)
      let preferredActiveId := sanitizeConversationId preferredActiveConversationId
      let remainingIds := remainingConversations.map (fun c => c.conversationId)
      let fallbackActiveId := (remainingConversations.head?).map (fun c => c.conversationId)
      let nextActiveConversationId :=
        if candidateUsable preferredActiveId sid remainingIds then preferredActiveId
        else if candidateUsable globalActiveId sid remainingIds then globalActiveId
        else fallbackActiveId
      .ok (remainingConversations, nextActiveConversationId)

/-! ## Atomic JSON writes (`atomicWriteJson`, part_003:350-371)

The file system is a map from paths to file contents.  The source builds the
target path with `path.join(dir, base)` and the temp path with
`path.join(dir, "." + base + "." + pid + "." + uuid + ".tmp")`; both are modelled
as string concatenations, with `suffix` standing for the `pid.uuid` part.  A
rename is a single atomic step.  A failed `writeFile` may leave arbitrary partial
bytes in the temp file (`leftoverContent`), never in the target. -/

abbrev FileSystem := String → Option String

def setFile (fsys : FileSystem) (p content : String) : FileSystem :=
  fun q => if q = p then some content else fsys q

def removeFile (fsys : FileSystem) (p : String) : FileSystem :=
  fun q => if q = p then none else fsys q

def targetPathFor (directory targetBasename : String) : String :=
  directory ++ "/" ++ targetBasename

def tempPathFor (directory targetBasename suffix : String) : String :=
  directory ++ "/." ++ targetBasename ++ "." ++ suffix ++ ".tmp"

structure AtomicWriteResult where
  /-- `.ok` with the final file system, or `.error` when the call rethrows. -/
  outcome : Except Unit FileSystem
  /-- Every file-system state, in order, observable during the call (what any
  concurrent reader can see). -/
  states : List FileSystem

/-- `atomicWriteJson` (part_003:350): write the full serialized payload to the temp
path, rename it over the target; on rename failure, best-effort unlink the temp
file and rethrow.  The booleans select which step fails. -/
def atomicWriteJson (fsys : FileSystem) (directory targetBasename serialized suffix : String)
    (writeSucceeds renameSucceeds unlinkSucceeds : Bool) (leftoverContent : String) :
    AtomicWriteResult :=
  let tempPath := tempPathFor directory targetBasename suffix
  let filePath := targetPathFor directory targetBasename
  if writeSucceeds then
    let afterWrite := setFile fsys tempPath serialized
    if renameSucceeds then
      let afterRename := setFile (removeFile afterWrite tempPath) filePath serialized
      ⟨.ok afterRename, [fsys, afterWrite, afterRename]⟩
    else
      let afterCleanup := if unlinkSucceeds then removeFile afterWrite tempPath else afterWrite
      ⟨.error (), [fsys, afterWrite, afterCleanup]⟩
  else
    ⟨.error (), [fsys, setFile fsys tempPath leftoverContent]⟩

/-- `saveBundle` of the live store (part_003:373-375), which delegates the write to
`atomicWriteJson`; `writeJsonAtomic` in the dashboard-controls module is the same
routine.  The repository also carries a second, legacy copy of the store whose
`saveBundle` (part_002:236-238) does NOT go through this routine — it writes the
target directly; that path is modelled by `saveBundleDirect` below. -/
def saveBundle (fsys : FileSystem) (directory targetBasename serialized suffix : String)
    (writeSucceeds renameSucceeds unlinkSucceeds : Bool) (leftoverContent : String) :
    AtomicWriteResult :=
  atomicWriteJson fsys directory targetBasename serialized suffix
    writeSucceeds renameSucceeds unlinkSucceeds leftoverContent

/-- `saveBundle` of the legacy store copy (part_002:236-238):
`await fs.writeFile(filePath, serialized, "utf-8")` — the serialized bundle is
written directly to the target, with no temp file and no rename.  A direct write
is not atomic: midway through, the target holds a proper prefix of the payload
(`writtenLen` characters), which a concurrent reader can observe; if the write
fails there, the target is left with that partial content and the previous
content is lost. -/
def saveBundleDirect (fsys : FileSystem) (filePath serialized : String)
    (writeSucceeds : Bool) (writtenLen : Nat) : AtomicWriteResult :=
  let interrupted := setFile fsys filePath (String.mk (serialized.toList.take writtenLen))
  if writeSucceeds then
    let afterWrite := setFile fsys filePath serialized
    ⟨.ok afterWrite, [fsys, interrupted, afterWrite]⟩
  else
    ⟨.error (), [fsys, interrupted]⟩

/-! ## Per-conversation lock (`acquireConversationLock`, route.ts:1153-1184)

Acquisitions of one conversation's lock are numbered `0, 1, 2, …` in acquisition
order.  Acquisition `k` creates gate `k` and chains
`tail_k = tail_(k-1).then(() => gate_k, () => gate_k)`, so `tail_(k-1)` — the
promise acquisition `k` awaits — settles exactly when the gates `0, …, k-1` have
all been resolved, regardless of any rejection along the chain (both `then`
handlers return the gate): this is the `hprev` premise of the `enter` step, and it
mentions no error state, which is the formal content of errors neither blocking
nor propagating.  Gates are resolved only by the release closure, whose `released`
boolean makes a second call a no-op (`releaseConversationLock`).  The map-entry
cleanup in the closure only deletes a queue whose gates are all resolved and which
no later acquisition superseded, so it does not affect the chain semantics. -/

structure LockState where
  /-- Number of acquisitions performed so far for this conversation id. -/
  acquiredCount : Nat
  /-- Gate `k` has been resolved (the holder's release ran). -/
  gateResolved : Nat → Bool
  /-- Acquisition `k`'s `await previousTail` returned: the holder is past the
  acquire call and may run its critical section. -/
  entered : Nat → Bool
  /-- Holder `k`'s critical section threw. -/
  errored : Nat → Bool

def LockState.start : LockState :=
  ⟨0, fun _ => false, fun _ => false, fun _ => false⟩

/-- Holder `k` is inside its critical section: it entered and has not released. -/
def LockState.inCriticalSection (s : LockState) (k : Nat) : Prop :=
  s.entered k = true ∧ s.gateResolved k = false

/-- The release closure of acquisition `k`: resolve the gate unless the `released`
boolean was already set. -/
def releaseConversationLock (k : Nat) (s : LockState) : LockState :=
  if s.gateResolved k then s
  else { s with gateResolved := fun j => if j = k then true else s.gateResolved j }

def enterState (s : LockState) (k : Nat) : LockState :=
  { s with entered := fun j => if j = k then true else s.entered j }

def failState (s : LockState) (k : Nat) : LockState :=
  { s with errored := fun j => if j = k then true else s.errored j }

inductive LockStep : LockState → LockState → Prop
  /-- A new acquisition chains itself onto the tail. -/
  | acquire (s : LockState) :
      LockStep s { s with acquiredCount := s.acquiredCount + 1 }
  /-- Acquisition `k`'s `await previousTail` completes: every earlier gate has been
  resolved (see the header comment); the holder enters its critical section. -/
  | enter (s : LockState) (k : Nat) (hk : k < s.acquiredCount)
      (hfresh : s.entered k = false)
      (hprev : ∀ j, j < k → s.gateResolved j = true) :
      LockStep s (enterState s k)
  /-- Holder `k`'s critical section throws; the `finally` release still runs later. -/
  | fail (s : LockState) (k : Nat) (h : s.entered k = true) :
      LockStep s (failState s k)
  /-- Holder `k` calls its release closure. -/
  | release (s : LockState) (k : Nat) (h : s.entered k = true) :
      LockStep s (releaseConversationLock k s)

/-- The process-wide `conversationLockQueues` map: one `LockState` per
conversation id; a step touches exactly one id's queue. -/
def ConversationLocks := String → LockState

def ConversationLocks.start : ConversationLocks := fun _ => LockState.start

inductive ConversationLockStep : ConversationLocks → ConversationLocks → Prop
  | step (g : ConversationLocks) (cid : String) (s' : LockState)
      (h : LockStep (g cid) s') :
      ConversationLockStep g (fun id => if id = cid then s' else g id)

def ReachableLocks (g : ConversationLocks) : Prop :=
  Relation.ReflTransGen ConversationLockStep ConversationLocks.start g

/-- The inductive invariant of one conversation's queue: a resolved gate belongs to
a holder that entered, and a holder that entered saw every earlier gate resolved. -/
def LockInvariant (s : LockState) : Prop :=
  (∀ k, s.gateResolved k = true → s.entered k = true) ∧
  (∀ k, s.entered k = true → ∀ j, j < k → s.gateResolved j = true)

/-! ### A concrete lock run used as witness: two acquisitions on
`"conversation1"`; holder 0 enters, throws, releases; holder 1 then enters. -/

def lockDemo1 : LockState := { LockState.start with acquiredCount := 1 }
def lockDemo2 : LockState := { lockDemo1 with acquiredCount := 2 }
def lockDemo3 : LockState := enterState lockDemo2 0
def lockDemo4 : LockState := failState lockDemo3 0
def lockDemo5 : LockState := releaseConversationLock 0 lockDemo4
def lockDemo6 : LockState := enterState lockDemo5 1

def lockDemoStep (g : ConversationLocks) (s' : LockState) : ConversationLocks :=
  fun id => if id = "conversation1" then s' else g id

def lockDemoG1 : ConversationLocks := lockDemoStep ConversationLocks.start lockDemo1
def lockDemoG2 : ConversationLocks := lockDemoStep lockDemoG1 lockDemo2
def lockDemoG3 : ConversationLocks := lockDemoStep lockDemoG2 lockDemo3
def lockDemoG4 : ConversationLocks := lockDemoStep lockDemoG3 lockDemo4
def lockDemoG5 : ConversationLocks := lockDemoStep lockDemoG4 lockDemo5
def lockDemoFinal : ConversationLocks := lockDemoStep lockDemoG5 lockDemo6

/-! ## Theorems -/

/-! ### Routing helper lemmas -/

private lemma routing_thresholds_eq : ∀ a : Fin 101,
    clampInt (a.val : Int) 0 100 = (a.val : Int) ∧
    toolingThresholdOf (a.val : Int) = specClamp (9 - (a.val : Int) / 20) 4 9 ∧
    heavyThresholdOf (a.val : Int) = specClamp (17 - (a.val : Int) / 10) 7 17 := by
  decide

set_option maxRecDepth 4000 in
private lemma heavyThreshold_antitone : ∀ a b : Fin 101, a.val ≤ b.val →
    heavyThresholdOf (b.val : Int) ≤ heavyThresholdOf (a.val : Int) := by
  decide

private lemma tier_eq_heavy_iff (complexity : Nat) (tools : RoutingToolSignals) (s : Int) :
    buildRoutingDecisionTier complexity tools s = .heavy ↔
      (complexity : Int) ≥
        heavyThresholdOf (clampInt s 0 100) - (if tools.deepSearchEnabled then 2 else 0) := by
  simp only [buildRoutingDecisionTier]
  split_ifs with h1 h2 <;> simp_all

/-- C2: for every prompt (through its complexity score), tool signals and
sensitivity `s ∈ [0,100]`, the tier selection of `buildRoutingDecision` computes
exactly the thresholds and case split the specification states:
`toolingThreshold = clamp(9 - ⌊s/20⌋, 4, 9)`, `heavyThreshold = clamp(17 - ⌊s/10⌋, 7, 17)`,
heavy when `complexity ≥ heavyThreshold - 2·[deep search]`, else tooling on any
tool signal or `complexity ≥ toolingThreshold`, else light. -/
theorem buildRoutingDecision_tier_matches_spec (prompt : JsString) (instructionScore : Nat)
    (tools : RoutingToolSignals) (s : Int) (h0 : 0 ≤ s) (h1 : s ≤ 100) :
    buildRoutingDecisionTier (scorePromptComplexity instructionScore prompt tools) tools s =
      specRoutingTier (scorePromptComplexity instructionScore prompt tools) tools s := by
  have ha : s.toNat < 101 := by omega
  obtain ⟨k1, k2, k3⟩ := routing_thresholds_eq ⟨s.toNat, ha⟩
  have hs : ((s.toNat : Nat) : Int) = s := Int.toNat_of_nonneg h0
  simp only [Fin.val_mk] at k1 k2 k3
  rw [hs] at k1 k2 k3
  simp only [buildRoutingDecisionTier, specRoutingTier, hasAnyToolingSignals]
  rw [k1, k2, k3]

/-- Witness for C2 at the concrete prompt `"hi"`, no tools, sensitivity 55. -/
theorem buildRoutingDecision_tier_matches_spec_witness :
    (0 : Int) ≤ 55 ∧ (55 : Int) ≤ 100 ∧
    buildRoutingDecisionTier (scorePromptComplexity 0 ['h', 'i'] ⟨false, false, 0⟩)
        ⟨false, false, 0⟩ 55 =
      specRoutingTier (scorePromptComplexity 0 ['h', 'i'] ⟨false, false, 0⟩)
        ⟨false, false, 0⟩ 55 :=
  ⟨by decide, by decide,
    buildRoutingDecision_tier_matches_spec ['h', 'i'] 0 ⟨false, false, 0⟩ 55
      (by decide) (by decide)⟩

/-- C5: for a fixed prompt and fixed tool signals, the routing tier is monotone in
`routingSensitivity`: once the decision is heavy at sensitivity `s`, it is heavy at
every sensitivity `s' ≥ s` in `[0, 100]`. -/
theorem routingTier_heavy_monotone_in_sensitivity (prompt : JsString)
    (instructionScore : Nat) (tools : RoutingToolSignals) (s s' : Int)
    (h0 : 0 ≤ s) (hss : s ≤ s') (h1 : s' ≤ 100)
    (hheavy : buildRoutingDecisionTier (scorePromptComplexity instructionScore prompt tools)
      tools s = .heavy) :
    buildRoutingDecisionTier (scorePromptComplexity instructionScore prompt tools)
      tools s' = .heavy := by
  set complexity := scorePromptComplexity instructionScore prompt tools with hc
  rw [tier_eq_heavy_iff] at hheavy ⊢
  have hclamp : clampInt s 0 100 = s := by
    simp only [clampInt]
    split_ifs <;> omega
  have hclamp' : clampInt s' 0 100 = s' := by
    simp only [clampInt]
    split_ifs <;> omega
  rw [hclamp] at hheavy
  rw [hclamp']
  have hmono := heavyThreshold_antitone ⟨s.toNat, by omega⟩ ⟨s'.toNat, by omega⟩ (by
    simp only [Fin.val_mk]
    omega)
  simp only [Fin.val_mk] at hmono
  rw [Int.toNat_of_nonneg h0, Int.toNat_of_nonneg (by omega : (0 : Int) ≤ s')] at hmono
  set b : Int := if tools.deepSearchEnabled then 2 else 0 with hb
  omega

/-- Witness for C5: an instruction-heavy prompt routed heavy at sensitivity 0 stays
heavy at sensitivity 100. -/
theorem routingTier_heavy_monotone_in_sensitivity_witness :
    (0 : Int) ≤ 0 ∧ (0 : Int) ≤ 100 ∧ (100 : Int) ≤ 100 ∧
    buildRoutingDecisionTier (scorePromptComplexity 20 ['h', 'i'] ⟨false, false, 0⟩)
        ⟨false, false, 0⟩ 0 = .heavy ∧
    buildRoutingDecisionTier (scorePromptComplexity 20 ['h', 'i'] ⟨false, false, 0⟩)
        ⟨false, false, 0⟩ 100 = .heavy :=
  ⟨by decide, by decide, by decide, by decide,
    routingTier_heavy_monotone_in_sensitivity ['h', 'i'] 20 ⟨false, false, 0⟩ 0 100
      (by decide) (by decide) (by decide) (by decide)⟩

private lemma history_params_eq : ∀ tier : RoutingTier, ∀ a : Fin 101,
    computeHistoryCompression tier (a.val : Int) = specHistoryParams tier (a.val : Int) := by
  decide

/-- C6: for every compression `c ∈ [0,100]` and every tier,
`computeHistoryCompression` returns exactly the parameters the specification
states: base window `24 - round(18·c/100)`, base summary budget
`4200 - round(3300·c/100)`, light `−2` messages / `−350` chars, heavy `+3`
messages / `+550` chars, tooling unmodified, clamped to `[6,24]` and `[900,4200]`. -/
theorem computeHistoryCompression_matches_spec (tier : RoutingTier) (c : Int)
    (h0 : 0 ≤ c) (h1 : c ≤ 100) :
    computeHistoryCompression tier c = specHistoryParams tier c := by
  have ha : c.toNat < 101 := by omega
  have key := history_params_eq tier ⟨c.toNat, ha⟩
  simp only [Fin.val_mk] at key
  rwa [Int.toNat_of_nonneg h0] at key

/-- Witness for C6 at compression 50, heavy tier. -/
theorem computeHistoryCompression_matches_spec_witness :
    (0 : Int) ≤ 50 ∧ (50 : Int) ≤ 100 ∧
    computeHistoryCompression .heavy 50 = specHistoryParams .heavy 50 :=
  ⟨by decide, by decide, computeHistoryCompression_matches_spec .heavy 50 (by decide) (by decide)⟩

/-! ### MIME sniffing (C9) -/

private lemma pdf_check_iff (l : ByteBuffer) :
    (5 ≤ l.length ∧ l.take 5 = pdfSignature) ↔ l.take 5 = pdfSignature := by
  constructor
  · exact fun h => h.2
  · intro h
    refine ⟨?_, h⟩
    have := congrArg List.length h
    simp only [List.length_take, pdfSignature, List.length_cons, List.length_nil] at this
    omega

private lemma png_check_iff (l : ByteBuffer) :
    (8 ≤ l.length ∧ l.get? 0 = some 0x89 ∧ l.get? 1 = some 0x50 ∧ l.get? 2 = some 0x4E ∧
      l.get? 3 = some 0x47 ∧ l.get? 4 = some 0x0D ∧ l.get? 5 = some 0x0A ∧
      l.get? 6 = some 0x1A ∧ l.get? 7 = some 0x0A) ↔ l.take 8 = pngSignature := by
  rcases l with _ | ⟨b0, _ | ⟨b1, _ | ⟨b2, _ | ⟨b3, _ | ⟨b4, _ | ⟨b5, _ | ⟨b6, _ | ⟨b7, t⟩⟩⟩⟩⟩⟩⟩⟩ <;>
    simp [pngSignature, List.get?]

private lemma jpeg_check_iff (l : ByteBuffer) :
    (3 ≤ l.length ∧ l.get? 0 = some 0xFF ∧ l.get? 1 = some 0xD8 ∧ l.get? 2 = some 0xFF) ↔
      l.take 3 = [0xFF, 0xD8, 0xFF] := by
  rcases l with _ | ⟨b0, _ | ⟨b1, _ | ⟨b2, t⟩⟩⟩ <;> simp [List.get?]

private lemma webp_check_iff (l : ByteBuffer) :
    (12 ≤ l.length ∧ (l.take 4).map asciiByte = riffSignature ∧
        ((l.drop 8).take 4).map asciiByte = webpSignature) ↔
      ((l.take 4).map asciiByte = riffSignature ∧
        ((l.drop 8).take 4).map asciiByte = webpSignature) := by
  constructor
  · exact fun h => ⟨h.2.1, h.2.2⟩
  · intro h
    refine ⟨?_, h.1, h.2⟩
    have := congrArg List.length h.2
    simp only [List.length_map, List.length_take, List.length_drop, webpSignature,
      List.length_cons, List.length_nil] at this
    omega

/-- C9 as amended: `detectMimeFromBinary` returns `application/pdf` exactly on a
`%PDF-` prefix, `image/png` exactly on the 8-byte PNG signature, `image/jpeg`
exactly on an `FF D8 FF` prefix, `image/webp` exactly when bytes 0–3 and 8–11 spell
`RIFF`/`WEBP` after Node's `ascii` decoding clears each byte's high bit, and `none`
otherwise. -/
theorem detectMimeFromBinary_matches_spec (decoded : ByteBuffer) :
    detectMimeFromBinary decoded = specDetectMimeAmended decoded := by
  simp only [detectMimeFromBinary, specDetectMimeAmended, pdf_check_iff, png_check_iff,
    jpeg_check_iff, webp_check_iff]

/-- Counterexample to C9 as stated: the buffer starting `D2 49 46 46` (`R` with its
high bit set, then `IFF`) matches none of the four literal signatures, yet
`detectMimeFromBinary` reports `image/webp`, because the source compares the
`RIFF`/`WEBP` bytes through `Buffer.toString("ascii")`, which clears the high bit
of every byte. -/
theorem detectMime_ascii_mask_counterexample :
    detectMimeFromBinary
        [0xD2, 0x49, 0x46, 0x46, 0, 0, 0, 0, 0x57, 0x45, 0x42, 0x50] = some "image/webp" ∧
    specDetectMime
        [0xD2, 0x49, 0x46, 0x46, 0, 0, 0, 0, 0x57, 0x45, 0x42, 0x50] = none ∧
    detectMimeFromBinary
        [0xD2, 0x49, 0x46, 0x46, 0, 0, 0, 0, 0x57, 0x45, 0x42, 0x50] ≠
      specDetectMime [0xD2, 0x49, 0x46, 0x46, 0, 0, 0, 0, 0x57, 0x45, 0x42, 0x50] := by
  refine ⟨by decide, by decide, by decide⟩

/-! ### The 1500-character deep-search scenario (C8) -/

/-- C8 as amended: a prompt whose normalized form has 1500 characters, 5 newlines
and 2 question marks scores at least 6 (in fact at least 7) on length; with only
deep search enabled the tool score is 3 (not 5 as the specification scenario
claims: web +2 / deep +3 / both +1 only yields 5 when web search is also on); and
the decision is nonetheless heavy at the default sensitivity 55, since
`heavyThreshold = 17 - 5 = 12` is biased down by 2 for deep search and
`lengthScore + toolScore ≥ 7 + 3 = 10`. -/
theorem scenario1500_deep_search_routes_heavy (prompt : JsString) (instructionScore : Nat)
    (hchar : (jsToLowerCase (jsTrim prompt)).length = 1500)
    (hnl : (jsToLowerCase (jsTrim prompt)).count '\n' = 5)
    (hq : (jsToLowerCase (jsTrim prompt)).count '?' = 2) :
    6 ≤ scorePromptLength prompt ∧
    scoreToolComplexity ⟨false, true, 0⟩ = 3 ∧
    buildRoutingDecisionTier (scorePromptComplexity instructionScore prompt ⟨false, true, 0⟩)
      ⟨false, true, 0⟩ 55 = .heavy := by
  have hne : jsToLowerCase (jsTrim prompt) ≠ [] := by
    intro h
    rw [h] at hchar
    simp at hchar
  have hscore : 7 ≤ scorePromptLength prompt := by
    simp only [scorePromptLength]
    rw [if_neg hne, hchar, hnl, hq]
    norm_num
    split_ifs <;> omega
  have htrim : jsTrim prompt ≠ [] := by
    intro h
    apply hne
    rw [jsToLowerCase, h]
    rfl
  have hcomplexity : 10 ≤ scorePromptComplexity instructionScore prompt ⟨false, true, 0⟩ := by
    simp only [scorePromptComplexity, if_neg htrim]
    have htool : scoreToolComplexity ⟨false, true, 0⟩ = 3 := by decide
    omega
  refine ⟨by omega, by decide, ?_⟩
  rw [tier_eq_heavy_iff]
  have hthr : heavyThresholdOf (clampInt 55 0 100) = 12 := by decide
  have hbias : (if (⟨false, true, 0⟩ : RoutingToolSignals).deepSearchEnabled
      then (2 : Int) else 0) = 2 := by decide
  rw [hthr, hbias]
  omega

set_option maxRecDepth 100000 in
/-- Witness for C8 (amended) at the concrete prompt of 1493 `a`s, five newlines and
two question marks. -/
theorem scenario1500_deep_search_routes_heavy_witness :
    (jsToLowerCase (jsTrim (List.replicate 1493 'a' ++
        List.replicate 5 '\n' ++ ['?', '?']))).length = 1500 ∧
    (jsToLowerCase (jsTrim (List.replicate 1493 'a' ++
        List.replicate 5 '\n' ++ ['?', '?']))).count '\n' = 5 ∧
    (jsToLowerCase (jsTrim (List.replicate 1493 'a' ++
        List.replicate 5 '\n' ++ ['?', '?']))).count '?' = 2 ∧
    (6 ≤ scorePromptLength (List.replicate 1493 'a' ++ List.replicate 5 '\n' ++ ['?', '?']) ∧
      scoreToolComplexity ⟨false, true, 0⟩ = 3 ∧
      buildRoutingDecisionTier
        (scorePromptComplexity 0 (List.replicate 1493 'a' ++ List.replicate 5 '\n' ++ ['?', '?'])
          ⟨false, true, 0⟩)
        ⟨false, true, 0⟩ 55 = .heavy) :=
  ⟨by decide, by decide, by decide,
    scenario1500_deep_search_routes_heavy
      (List.replicate 1493 'a' ++ List.replicate 5 '\n' ++ ['?', '?']) 0
      (by decide) (by decide) (by decide)⟩

/-- Counterexample to C8 as stated: at the very prompt of the scenario (1500
characters, 5 newlines, 2 question marks) with only deep search enabled, the tool
score is 3, so the claimed conjunction (length score ≥ 6 ∧ tool score ≥ 5 ∧ tier
heavy) fails — its middle conjunct `5 ≤ scoreToolComplexity` is false. -/
theorem scenario1500_tool_score_counterexample :
    ¬ (6 ≤ scorePromptLength (List.replicate 1493 'a' ++ List.replicate 5 '\n' ++ ['?', '?']) ∧
       5 ≤ scoreToolComplexity ⟨false, true, 0⟩ ∧
       buildRoutingDecisionTier
         (scorePromptComplexity 0 (List.replicate 1493 'a' ++ List.replicate 5 '\n' ++ ['?', '?'])
           ⟨false, true, 0⟩)
         ⟨false, true, 0⟩ 55 = .heavy) := by
  intro h
  exact absurd h.2.1 (by decide)

/-! ### Message merge (C1) -/

private lemma mergeAppend_eq_filter (l : List StoredMessage) :
    ∀ seen : List String, (l.map (fun m => m.id)).Nodup →
      mergeAppend seen l = l.filter (fun m => decide (m.id ∉ seen)) := by
  induction l with
  | nil => intro seen _; rfl
  | cons m rest ih =>
    intro seen hnodup
    simp only [List.map_cons, List.nodup_cons] at hnodup
    obtain ⟨hm, hrest⟩ := hnodup
    by_cases hmem : m.id ∈ seen
    · rw [mergeAppend, if_pos hmem, List.filter_cons_of_neg (by simpa using hmem),
        ih seen hrest]
    · rw [mergeAppend, if_neg hmem, List.filter_cons_of_pos (by simpa using hmem),
        ih (m.id :: seen) hrest]
      congr 1
      refine List.filter_congr (fun x hx => ?_)
      have hxne : x.id ≠ m.id := by
        intro hcontra
        exact hm (hcontra ▸ List.mem_map_of_mem (fun y => y.id) hx)
      simp [List.mem_cons, hxne]

private lemma merge_eq_append_filter (existing incoming : List StoredMessage)
    (hin : (incoming.map (fun m => m.id)).Nodup) :
    mergeStoredMessagesPreservingExisting existing incoming =
      existing ++
        incoming.filter (fun m => decide (m.id ∉ existing.map (fun x => x.id))) := by
  by_cases hex : existing = []
  · subst hex
    simp [mergeStoredMessagesPreservingExisting]
  · by_cases hinc : incoming = []
    · subst hinc
      simp [mergeStoredMessagesPreservingExisting, hex]
    · rw [mergeStoredMessagesPreservingExisting, if_neg hex, if_neg hinc,
        mergeAppend_eq_filter incoming _ hin]

private lemma merge_ids_nodup (existing incoming : List StoredMessage)
    (hex : (existing.map (fun m => m.id)).Nodup)
    (hin : (incoming.map (fun m => m.id)).Nodup) :
    ((mergeStoredMessagesPreservingExisting existing incoming).map (fun m => m.id)).Nodup := by
  rw [merge_eq_append_filter existing incoming hin, List.map_append, List.nodup_append]
  refine ⟨hex, ?_, ?_⟩
  · exact ((List.filter_sublist incoming).map (fun m => m.id)).nodup hin
  · intro a ha hb
    obtain ⟨m, hmmem, rfl⟩ := List.mem_map.mp hb
    have := (List.mem_filter.mp hmmem).2
    simp only [decide_eq_true_eq] at this
    exact this ha

private lemma merge_absorb (existing incoming : List StoredMessage)
    (hin : (incoming.map (fun m => m.id)).Nodup) :
    mergeStoredMessagesPreservingExisting
        (mergeStoredMessagesPreservingExisting existing incoming) incoming =
      mergeStoredMessagesPreservingExisting existing incoming := by
  rw [merge_eq_append_filter (mergeStoredMessagesPreservingExisting existing incoming)
    incoming hin]
  have hempty : incoming.filter (fun m =>
      decide (m.id ∉ (mergeStoredMessagesPreservingExisting existing incoming).map
        (fun x => x.id))) = [] := by
    rw [List.filter_eq_nil_iff]
    intro m hm
    simp only [decide_eq_true_eq, not_not]
    rw [merge_eq_append_filter existing incoming hin, List.map_append, List.mem_append]
    by_cases h : m.id ∈ existing.map (fun x => x.id)
    · exact Or.inl h
    · refine Or.inr (List.mem_map.mpr ⟨m, List.mem_filter.mpr ⟨hm, ?_⟩, rfl⟩)
      simpa using h
  rw [hempty, List.append_nil]

/-- C1 as amended: provided the stored bundle's message ids and the incoming
message ids are each pairwise distinct, `persistPromptSnapshot` merges by id —
every stored message is kept in its original position, incoming messages whose ids
are not already stored are appended in incoming order, the result has no duplicate
ids, and a second call with the same messages leaves the message list unchanged.
(Without the distinctness proviso the `existing = []` shortcut of
`mergeStoredMessagesPreservingExisting` copies duplicate incoming ids verbatim,
see the counterexample.) -/
theorem persistPromptSnapshot_merges_by_id (bundle : ConversationBundle)
    (incoming : List StoredMessage) (opts opts' : PersistOptions) (now now' : String)
    (hex : (bundle.messages.map (fun m => m.id)).Nodup)
    (hin : (incoming.map (fun m => m.id)).Nodup) :
    (persistPromptSnapshotBundle bundle incoming opts now).messages =
      bundle.messages ++
        incoming.filter (fun m => decide (m.id ∉ bundle.messages.map (fun x => x.id))) ∧
    (((persistPromptSnapshotBundle bundle incoming opts now).messages.map
        (fun m => m.id)).Nodup) ∧
    (persistPromptSnapshotBundle (persistPromptSnapshotBundle bundle incoming opts now)
        incoming opts' now').messages =
      (persistPromptSnapshotBundle bundle incoming opts now).messages := by
  refine ⟨?_, ?_, ?_⟩
  · simpa [persistPromptSnapshotBundle] using merge_eq_append_filter bundle.messages incoming hin
  · simpa [persistPromptSnapshotBundle] using merge_ids_nodup bundle.messages incoming hex hin
  · simpa [persistPromptSnapshotBundle] using merge_absorb bundle.messages incoming hin

/-- Witness for C1 (amended): a bundle holding message id `a`, with incoming ids
`a` (already stored) and `b` (new). -/
theorem persistPromptSnapshot_merges_by_id_witness :
    (([⟨"a", .user, "first", "t0"⟩] : List StoredMessage).map (fun m => m.id)).Nodup ∧
    (([⟨"a", .user, "first", "t0"⟩, ⟨"b", .assistant, "second", "t1"⟩] :
        List StoredMessage).map (fun m => m.id)).Nodup ∧
    ((persistPromptSnapshotBundle
        ⟨⟨"conversation1", "Conversation 1", "t0", "t0", none, none⟩,
          ⟨"dedalus", "anthropic/claude-opus-4-5"⟩, [⟨"a", .user, "first", "t0"⟩], ""⟩
        [⟨"a", .user, "first", "t0"⟩, ⟨"b", .assistant, "second", "t1"⟩]
        ⟨none, none, none⟩ "t2").messages =
      [⟨"a", .user, "first", "t0"⟩] ++
        ([⟨"a", .user, "first", "t0"⟩, ⟨"b", .assistant, "second", "t1"⟩] :
            List StoredMessage).filter
          (fun m => decide (m.id ∉ ([⟨"a", .user, "first", "t0"⟩] :
            List StoredMessage).map (fun x => x.id))) ∧
      (((persistPromptSnapshotBundle
          ⟨⟨"conversation1", "Conversation 1", "t0", "t0", none, none⟩,
            ⟨"dedalus", "anthropic/claude-opus-4-5"⟩, [⟨"a", .user, "first", "t0"⟩], ""⟩
          [⟨"a", .user, "first", "t0"⟩, ⟨"b", .assistant, "second", "t1"⟩]
          ⟨none, none, none⟩ "t2").messages.map (fun m => m.id)).Nodup) ∧
      (persistPromptSnapshotBundle
          (persistPromptSnapshotBundle
            ⟨⟨"conversation1", "Conversation 1", "t0", "t0", none, none⟩,
              ⟨"dedalus", "anthropic/claude-opus-4-5"⟩, [⟨"a", .user, "first", "t0"⟩], ""⟩
            [⟨"a", .user, "first", "t0"⟩, ⟨"b", .assistant, "second", "t1"⟩]
            ⟨none, none, none⟩ "t2")
          [⟨"a", .user, "first", "t0"⟩, ⟨"b", .assistant, "second", "t1"⟩]
          ⟨none, none, none⟩ "t3").messages =
        (persistPromptSnapshotBundle
          ⟨⟨"conversation1", "Conversation 1", "t0", "t0", none, none⟩,
            ⟨"dedalus", "anthropic/claude-opus-4-5"⟩, [⟨"a", .user, "first", "t0"⟩], ""⟩
          [⟨"a", .user, "first", "t0"⟩, ⟨"b", .assistant, "second", "t1"⟩]
          ⟨none, none, none⟩ "t2").messages) :=
  ⟨by decide, by decide,
    persistPromptSnapshot_merges_by_id
      ⟨⟨"conversation1", "Conversation 1", "t0", "t0", none, none⟩,
        ⟨"dedalus", "anthropic/claude-opus-4-5"⟩, [⟨"a", .user, "first", "t0"⟩], ""⟩
      [⟨"a", .user, "first", "t0"⟩, ⟨"b", .assistant, "second", "t1"⟩]
      ⟨none, none, none⟩ ⟨none, none, none⟩ "t2" "t3" (by decide) (by decide)⟩

/-- Counterexample to C1 as stated: persisting an incoming list that repeats the id
`m-1` into a bundle with no stored messages copies the duplicate verbatim (the
merge returns the incoming list unchanged when nothing is stored), so calling
`persistPromptSnapshot` twice with that same message set leaves a bundle whose
message ids are NOT duplicate-free. -/
theorem persistPromptSnapshot_duplicate_ids_counterexample :
    ¬ ((((persistPromptSnapshotBundle
        (persistPromptSnapshotBundle
          ⟨⟨"conversation1", "Conversation 1", "t0", "t0", none, none⟩,
            ⟨"dedalus", "anthropic/claude-opus-4-5"⟩, [], ""⟩
          [⟨"m-1", .user, "hello", "t1"⟩, ⟨"m-1", .user, "hello again", "t1"⟩]
          ⟨none, none, none⟩ "t2")
        [⟨"m-1", .user, "hello", "t1"⟩, ⟨"m-1", .user, "hello again", "t1"⟩]
        ⟨none, none, none⟩ "t3").messages.map (fun m => m.id)).Nodup)) := by
  decide

/-! ### Assistant completion after deletion (C10) -/

private lemma storeLookup_storeSave_self (store : ConversationStore) (id : String)
    (b : ConversationBundle) : storeLookup (storeSave store id b) id = some b := by
  induction store with
  | nil => simp [storeSave, storeLookup, List.find?]
  | cons e t ih =>
    by_cases he : e.1 = id
    · have hany : ((e :: t).any (fun x => decide (x.1 = id))) = true := by
        simp [List.any_cons, he]
      simp [storeSave, hany, List.find?, he, storeLookup]
    · by_cases ht : (t.any (fun x => decide (x.1 = id))) = true
      · have hany : ((e :: t).any (fun x => decide (x.1 = id))) = true := by
          simp [List.any_cons, ht]
        simp only [storeSave, hany, if_true, List.map_cons, if_neg he]
        simp only [storeSave, ht, if_true] at ih
        simp only [storeLookup, List.find?_cons, he, decide_eq_true_eq] at ih ⊢
        simpa [he] using ih
      · simp only [Bool.not_eq_true] at ht
        have hany : ((e :: t).any (fun x => decide (x.1 = id))) = false := by
          simp [List.any_cons, he, ht]
        simp only [storeSave, hany, Bool.false_eq_true, if_false, List.cons_append]
        simp only [storeSave, ht, Bool.false_eq_true, if_false] at ih
        simp only [storeLookup, List.find?_cons, he, decide_eq_true_eq] at ih ⊢
        simpa [he] using ih

/-- C10: `appendAssistantCompletion` with non-blank text and a (sanitized) id whose
bundle file is missing never reaches a NotFound-class error: it goes through
`ensureConversationRecord`, which creates a fresh bundle at that id, and appends
the assistant message to it — while `ensureExistingConversationRecord` (the
creation-disallowed lookup, which `appendAssistantCompletion` does not use) would
report NotFound for the same store and id. -/
theorem appendAssistantCompletion_resurrects (store : ConversationStore)
    (conversationId text newMessageId now : String)
    (hid : sanitizeConversationId (some conversationId) = some conversationId)
    (hmissing : storeLookup store conversationId = none)
    (htext : jsTrim text.toList ≠ []) :
    storeLookup (appendAssistantCompletion store conversationId text newMessageId now)
        conversationId =
      some { createConversationBundle conversationId now with
             messages := [⟨newMessageId, .assistant, text, now⟩] } ∧
    ensureExistingConversationRecord store (some conversationId) = .error .notFound := by
  constructor
  · simp only [appendAssistantCompletion, if_neg htext, ensureConversationRecord, hid,
      hmissing, isDuplicateAssistantTail, createConversationBundle, List.getLast?_nil,
      List.nil_append, Bool.false_eq_true, if_false]
    exact storeLookup_storeSave_self _ _ _
  · simp [ensureExistingConversationRecord, hid, hmissing]

/-- Witness for C10: appending to the missing `conversation7` in an empty store. -/
theorem appendAssistantCompletion_resurrects_witness :
    sanitizeConversationId (some "conversation7") = some "conversation7" ∧
    storeLookup [] "conversation7" = none ∧
    jsTrim "an answer".toList ≠ [] ∧
    (storeLookup (appendAssistantCompletion [] "conversation7" "an answer" "assistant-9" "t0")
        "conversation7" =
      some { createConversationBundle "conversation7" "t0" with
             messages := [⟨"assistant-9", .assistant, "an answer", "t0"⟩] } ∧
    ensureExistingConversationRecord [] (some "conversation7") = .error .notFound) :=
  ⟨by decide, by decide, by decide,
    appendAssistantCompletion_resurrects [] "conversation7" "an answer" "assistant-9" "t0"
      (by decide) (by decide) (by decide)⟩

/-! ### Delete and next-active selection (C7) -/

private lemma remaining_ne_nil {conversations : List ConversationSummary} {sid : String}
    (hmem : sid ∈ conversations.map (fun c => c.conversationId))
    (hnodup : (conversations.map (fun c => c.conversationId)).Nodup)
    (hlen : 2 ≤ conversations.length) :
    conversations.filter (fun c => c.conversationId ≠ sid) ≠ [] := by
  intro hnil
  have hall : ∀ c ∈ conversations, c.conversationId = sid := by
    intro c hc
    have := List.filter_eq_nil_iff.mp hnil c hc
    simpa using this
  match conversations, hlen with
  | c1 :: c2 :: rest, _ =>
    simp only [List.map_cons, List.nodup_cons] at hnodup
    exact hnodup.1 (by
      rw [hall c1 (by simp), hall c2 (by simp)]
      simp)

/-- C7: `deleteConversationForUi` refuses to delete the only remaining conversation
with a LastConversation-class error (so the file is not removed — no modified
listing is produced); otherwise it removes exactly the target from the listing and
selects the next active conversation by preference order: the caller-supplied
preferred id when it still exists and differs from the deleted id, else the global
active id under the same condition, else the first remaining conversation, which
under the store's recency-sorted listing is the most recent one (`ts` abstracts the
`Date.parse` timestamp of `updatedAt`). -/
theorem deleteConversationForUi_selects_next_active (ts : String → Nat)
    (conversations : List ConversationSummary)
    (cid preferredId globalId : Option String) (sid : String)
    (hid : sanitizeConversationId cid = some sid)
    (hmem : sid ∈ conversations.map (fun c => c.conversationId))
    (hnodup : (conversations.map (fun c => c.conversationId)).Nodup)
    (hsorted : conversations.Pairwise (fun a b => ts b.updatedAt ≤ ts a.updatedAt)) :
    (conversations.length = 1 →
      deleteConversationForUi conversations cid preferredId globalId =
        .error .lastConversation) ∧
    (2 ≤ conversations.length →
      ∃ next,
        deleteConversationForUi conversations cid preferredId globalId =
          .ok (conversations.filter (fun c => c.conversationId ≠ sid), next) ∧
        (∀ p, sanitizeConversationId preferredId = some p → p ≠ sid →
          p ∈ (conversations.filter (fun c => c.conversationId ≠ sid)).map
              (fun c => c.conversationId) →
          next = some p) ∧
        (candidateUsable (sanitizeConversationId preferredId) sid
            ((conversations.filter (fun c => c.conversationId ≠ sid)).map
              (fun c => c.conversationId)) = false →
          ∀ g, globalId = some g → g ≠ sid →
          g ∈ (conversations.filter (fun c => c.conversationId ≠ sid)).map
              (fun c => c.conversationId) →
          next = some g) ∧
        (candidateUsable (sanitizeConversationId preferredId) sid
            ((conversations.filter (fun c => c.conversationId ≠ sid)).map
              (fun c => c.conversationId)) = false →
          candidateUsable globalId sid
            ((conversations.filter (fun c => c.conversationId ≠ sid)).map
              (fun c => c.conversationId)) = false →
          ∃ c0, (conversations.filter (fun c => c.conversationId ≠ sid)).head? = some c0 ∧
            next = some c0.conversationId ∧
            ∀ c ∈ conversations.filter (fun c => c.conversationId ≠ sid),
              ts c.updatedAt ≤ ts c0.updatedAt)) := by
  have hany : conversations.any (fun c => decide (c.conversationId = sid)) = true := by
    rw [List.any_eq_true]
    obtain ⟨c, hc, hcid⟩ := List.mem_map.mp hmem
    exact ⟨c, hc, by simpa using hcid⟩
  constructor
  · intro hlen1
    simp [deleteConversationForUi, hid, hany, hlen1]
  · intro hlen2
    refine ⟨if candidateUsable (sanitizeConversationId preferredId) sid
        ((conversations.filter (fun c => c.conversationId ≠ sid)).map
          (fun c => c.conversationId)) then sanitizeConversationId preferredId
      else if candidateUsable globalId sid
          ((conversations.filter (fun c => c.conversationId ≠ sid)).map
            (fun c => c.conversationId)) then globalId
      else ((conversations.filter (fun c => c.conversationId ≠ sid)).head?).map
        (fun c => c.conversationId), ?_, ?_, ?_, ?_⟩
    · simp only [deleteConversationForUi, hid, hany, not_true_eq_false, if_false]
      rw [if_neg (by omega)]
    · intro p hp hpne hpmem
      have husable : candidateUsable (sanitizeConversationId preferredId) sid
          ((conversations.filter (fun c => c.conversationId ≠ sid)).map
            (fun c => c.conversationId)) = true := by
        rw [hp]
        simp only [candidateUsable, Bool.and_eq_true, decide_eq_true_eq]
        exact ⟨hpne, hpmem⟩
      rw [if_pos husable, hp]
    · intro hpref g hg hgne hgmem
      have husable : candidateUsable globalId sid
          ((conversations.filter (fun c => c.conversationId ≠ sid)).map
            (fun c => c.conversationId)) = true := by
        rw [hg]
        simp only [candidateUsable, Bool.and_eq_true, decide_eq_true_eq]
        exact ⟨hgne, hgmem⟩
      have hprefne : ¬ (candidateUsable (sanitizeConversationId preferredId) sid
          ((conversations.filter (fun c => c.conversationId ≠ sid)).map
            (fun c => c.conversationId)) = true) := by
        rw [hpref]
        exact Bool.false_ne_true
      rw [if_neg hprefne, if_pos husable, hg]
    · intro hpref hglob
      have hprefne : ¬ (candidateUsable (sanitizeConversationId preferredId) sid
          ((conversations.filter (fun c => c.conversationId ≠ sid)).map
            (fun c => c.conversationId)) = true) := by
        rw [hpref]
        exact Bool.false_ne_true
      have hglobne : ¬ (candidateUsable globalId sid
          ((conversations.filter (fun c => c.conversationId ≠ sid)).map
            (fun c => c.conversationId)) = true) := by
        rw [hglob]
        exact Bool.false_ne_true
      rw [if_neg hprefne, if_neg hglobne]
      have hne := remaining_ne_nil hmem hnodup hlen2
      obtain ⟨c0, rest, hrem⟩ := List.exists_cons_of_ne_nil hne
      have hsortedrem : (conversations.filter (fun c => c.conversationId ≠ sid)).Pairwise
          (fun a b => ts b.updatedAt ≤ ts a.updatedAt) := hsorted.filter _
      refine ⟨c0, ?_, ?_, ?_⟩
      · rw [hrem]; rfl
      · rw [hrem]; rfl
      · intro c hc
        rw [hrem] at hsortedrem hc
        rcases List.mem_cons.mp hc with hceq | hcrest
        · exact hceq ▸ le_refl _
        · exact (List.pairwise_cons.mp hsortedrem).1 c hcrest

/-- Witness for C7: deleting the only remaining conversation raises the
LastConversation-class error. -/
theorem deleteConversationForUi_selects_next_active_witness :
    sanitizeConversationId (some "conversation1") = some "conversation1" ∧
    "conversation1" ∈ ([⟨"conversation1", "Conversation 1", "t1", 0⟩] :
        List ConversationSummary).map (fun c => c.conversationId) ∧
    (([⟨"conversation1", "Conversation 1", "t1", 0⟩] :
        List ConversationSummary).map (fun c => c.conversationId)).Nodup ∧
    ([⟨"conversation1", "Conversation 1", "t1", 0⟩] :
        List ConversationSummary).Pairwise
      (fun a b => b.updatedAt.length ≤ a.updatedAt.length) ∧
    deleteConversationForUi [⟨"conversation1", "Conversation 1", "t1", 0⟩]
        (some "conversation1") none none = .error .lastConversation :=
  ⟨by decide, by decide, by decide, by decide,
    (deleteConversationForUi_selects_next_active String.length
      [⟨"conversation1", "Conversation 1", "t1", 0⟩]
      (some "conversation1") none none "conversation1"
      (by decide) (by decide) (by decide) (by decide)).1 (by decide)⟩

/-! ### Atomic JSON replace (C4) -/

/-- C4 as amended: every write that goes through `atomicWriteJson` — the live
store's `saveBundle` (part_003) and the dashboard-controls `writeJsonAtomic` —
is an atomic replace.  The temp path always differs from the target path; every
file-system state observable during the call shows the target either with its
previous content or with the complete new payload (never a partial write); when
any step fails the call reports the error and the target is unchanged in every
observable state; and when the write and rename succeed the final state holds
exactly the full serialized payload at the target.  (The legacy store copy's
`saveBundle`, part_002:236-238, writes the target directly and is NOT an atomic
replace — see the counterexample.) -/
theorem atomicWriteJson_atomic_replace (fsys : FileSystem)
    (directory targetBasename serialized suffix : String)
    (writeSucceeds renameSucceeds unlinkSucceeds : Bool) (leftoverContent : String) :
    tempPathFor directory targetBasename suffix ≠ targetPathFor directory targetBasename ∧
    (∀ fs' ∈ (atomicWriteJson fsys directory targetBasename serialized suffix
        writeSucceeds renameSucceeds unlinkSucceeds leftoverContent).states,
      fs' (targetPathFor directory targetBasename) =
          fsys (targetPathFor directory targetBasename) ∨
        fs' (targetPathFor directory targetBasename) = some serialized) ∧
    ((atomicWriteJson fsys directory targetBasename serialized suffix
        writeSucceeds renameSucceeds unlinkSucceeds leftoverContent).outcome = .error () →
      ∀ fs' ∈ (atomicWriteJson fsys directory targetBasename serialized suffix
          writeSucceeds renameSucceeds unlinkSucceeds leftoverContent).states,
        fs' (targetPathFor directory targetBasename) =
          fsys (targetPathFor directory targetBasename)) ∧
    (writeSucceeds = true → renameSucceeds = true →
      ∃ final, (atomicWriteJson fsys directory targetBasename serialized suffix
          writeSucceeds renameSucceeds unlinkSucceeds leftoverContent).outcome = .ok final ∧
        final (targetPathFor directory targetBasename) = some serialized) := by
  have hne : tempPathFor directory targetBasename suffix ≠
      targetPathFor directory targetBasename := by
    intro h
    have hl := congrArg String.length h
    simp only [tempPathFor, targetPathFor, String.length_append] at hl
    have e1 : ("/.").length = 2 := rfl
    have e2 : (".").length = 1 := rfl
    have e3 : (".tmp").length = 4 := rfl
    have e4 : ("/").length = 1 := rfl
    rw [e1, e2, e3, e4] at hl
    omega
  have hne' : targetPathFor directory targetBasename ≠
      tempPathFor directory targetBasename suffix := Ne.symm hne
  refine ⟨hne, ?_, ?_, ?_⟩
  · cases writeSucceeds <;> cases renameSucceeds <;> cases unlinkSucceeds <;>
      simp [atomicWriteJson, setFile, removeFile, hne']
  · cases writeSucceeds <;> cases renameSucceeds <;> cases unlinkSucceeds <;>
      simp [atomicWriteJson, setFile, removeFile, hne']
  · intro hw hr
    subst hw
    subst hr
    cases unlinkSucceeds <;>
      exact ⟨_, rfl, by simp [setFile]⟩

/-- Witness for C4: writing `conversation1.json` into an empty file system with both
steps succeeding yields the full payload at the target, and the temp path differs
from the target path. -/
theorem atomicWriteJson_atomic_replace_witness :
    tempPathFor "dedalus_stuff/conversations" "conversation1.json" "123.abc" ≠
      targetPathFor "dedalus_stuff/conversations" "conversation1.json" ∧
    ∃ final, (atomicWriteJson (fun _ => none) "dedalus_stuff/conversations"
        "conversation1.json" "full payload" "123.abc" true true true "").outcome = .ok final ∧
      final (targetPathFor "dedalus_stuff/conversations" "conversation1.json") =
        some "full payload" :=
  ⟨(atomicWriteJson_atomic_replace (fun _ => none) "dedalus_stuff/conversations"
      "conversation1.json" "full payload" "123.abc" true true true "").1,
   (atomicWriteJson_atomic_replace (fun _ => none) "dedalus_stuff/conversations"
      "conversation1.json" "full payload" "123.abc" true true true "").2.2.2 rfl rfl⟩

/-- Counterexample to C4 as stated: the claim's own sources include the legacy
store's `saveBundle` (part_002:236-238), which writes the bundle to the target
directly with `fs.writeFile`.  Overwriting a stored bundle `"old-bundle"` with
`"new-bundle"` through that path, interrupted after three characters, errors and
leaves the target holding the partial text `"new"` — neither the previous content
nor the complete payload — so a reader CAN observe a partially-written bundle and
the previous content is NOT preserved on failure. -/
theorem saveBundle_direct_write_counterexample :
    (saveBundleDirect
        (setFile (fun _ => none) "dedalus_stuff/conversations/conversation1.json"
          "old-bundle")
        "dedalus_stuff/conversations/conversation1.json" "new-bundle" false 3).outcome =
      .error () ∧
    ∃ fs' ∈ (saveBundleDirect
        (setFile (fun _ => none) "dedalus_stuff/conversations/conversation1.json"
          "old-bundle")
        "dedalus_stuff/conversations/conversation1.json" "new-bundle" false 3).states,
      fs' "dedalus_stuff/conversations/conversation1.json" = some "new" ∧
      some "new" ≠ (some "old-bundle" : Option String) ∧
      some "new" ≠ (some "new-bundle" : Option String) := by
  refine ⟨rfl, ?_⟩
  refine ⟨setFile (setFile (fun _ => none) "dedalus_stuff/conversations/conversation1.json"
      "old-bundle") "dedalus_stuff/conversations/conversation1.json" "new", ?_, ?_⟩
  · simp [saveBundleDirect]
  · exact ⟨by decide, by decide, by decide⟩

/-! ### Per-conversation lock (C3) -/

private lemma lockInvariant_start : LockInvariant LockState.start := by
  constructor <;> intro k hk <;> simp [LockState.start] at hk

private lemma lockInvariant_step {s s' : LockState} (h : LockStep s s')
    (hinv : LockInvariant s) : LockInvariant s' := by
  obtain ⟨h1, h2⟩ := hinv
  cases h with
  | acquire => exact ⟨h1, h2⟩
  | enter k hk hfresh hprev =>
    constructor
    · intro m hm
      simp only [enterState] at hm ⊢
      by_cases hmk : m = k
      · simp [hmk]
      · rw [if_neg hmk]
        exact h1 m hm
    · intro m hm j hj
      simp only [enterState] at hm ⊢
      by_cases hmk : m = k
      · subst hmk
        exact hprev j hj
      · rw [if_neg hmk] at hm
        exact h2 m hm j hj
  | fail k hk => exact ⟨h1, h2⟩
  | release k hk =>
    simp only [releaseConversationLock]
    by_cases hres : s.gateResolved k
    · rw [if_pos hres]
      exact ⟨h1, h2⟩
    · rw [if_neg hres]
      constructor
      · intro m hm
        simp only at hm
        by_cases hmk : m = k
        · subst hmk
          exact hk
        · rw [if_neg hmk] at hm
          exact h1 m hm
      · intro m hm j hj
        simp only
        by_cases hjk : j = k
        · simp [hjk]
        · rw [if_neg hjk]
          exact h2 m hm j hj

private lemma conversationLocks_invariant {g : ConversationLocks} (hg : ReachableLocks g) :
    ∀ id, LockInvariant (g id) := by
  induction hg with
  | refl => exact fun _ => lockInvariant_start
  | tail _ hstep ih =>
    cases hstep with
    | step cid s' h0 =>
      intro id
      by_cases hid : id = cid
      · simpa [hid] using lockInvariant_step h0 (ih cid)
      · simpa [hid] using ih id

/-- C3: in every reachable state of the per-conversation lock map, for every
conversation id: (mutual exclusion) at most one acquirer is inside its critical
section; (FIFO) a holder that entered has seen every earlier acquisition enter
and release first; (idempotent release) calling a release closure a second time
is a no-op; and (errors neither block nor propagate) an acquisition whose turn
has come can take the `enter` step — its premises mention only gate state, never
the `errored` flags set by throwing holders. -/
theorem acquireConversationLock_mutex_fifo (g : ConversationLocks)
    (hg : ReachableLocks g) (cid : String) :
    (∀ j k, (g cid).inCriticalSection j → (g cid).inCriticalSection k → j = k) ∧
    (∀ k, (g cid).entered k = true → ∀ j, j < k →
      (g cid).entered j = true ∧ (g cid).gateResolved j = true) ∧
    (∀ (s : LockState) (k : Nat),
      releaseConversationLock k (releaseConversationLock k s) =
        releaseConversationLock k s) ∧
    (∀ k, k < (g cid).acquiredCount → (g cid).entered k = false →
      (∀ j, j < k → (g cid).gateResolved j = true) →
      LockStep (g cid) (enterState (g cid) k)) := by
  obtain ⟨h1, h2⟩ := conversationLocks_invariant hg cid
  refine ⟨?_, ?_, ?_, ?_⟩
  · intro j k hj hk
    by_contra hne
    rcases Nat.lt_or_ge j k with hlt | hge
    · have hres := h2 k hk.1 j hlt
      rw [hj.2] at hres
      exact Bool.false_ne_true hres
    · have hlt' : k < j := Nat.lt_of_le_of_ne hge (fun h => hne h.symm)
      have hres := h2 j hj.1 k hlt'
      rw [hk.2] at hres
      exact Bool.false_ne_true hres
  · intro k hk j hj
    exact ⟨h1 j (h2 k hk j hj), h2 k hk j hj⟩
  · intro s k
    by_cases hres : s.gateResolved k
    · simp [releaseConversationLock, hres]
    · simp [releaseConversationLock, hres]
  · intro k hk1 hk2 hk3
    exact LockStep.enter (g cid) k hk1 hk2 hk3

private lemma lockDemoFinal_reachable : ReachableLocks lockDemoFinal := by
  apply Relation.ReflTransGen.head
    (ConversationLockStep.step ConversationLocks.start "conversation1" lockDemo1
      (LockStep.acquire (ConversationLocks.start "conversation1")))
  apply Relation.ReflTransGen.head
    (ConversationLockStep.step lockDemoG1 "conversation1" lockDemo2
      (LockStep.acquire (lockDemoG1 "conversation1")))
  apply Relation.ReflTransGen.head
    (ConversationLockStep.step lockDemoG2 "conversation1" lockDemo3
      (LockStep.enter (lockDemoG2 "conversation1") 0 (by decide) (by decide)
        (fun j hj => absurd hj (Nat.not_lt_zero j))))
  apply Relation.ReflTransGen.head
    (ConversationLockStep.step lockDemoG3 "conversation1" lockDemo4
      (LockStep.fail (lockDemoG3 "conversation1") 0 (by decide)))
  apply Relation.ReflTransGen.head
    (ConversationLockStep.step lockDemoG4 "conversation1" lockDemo5
      (LockStep.release (lockDemoG4 "conversation1") 0 (by decide)))
  apply Relation.ReflTransGen.head
    (ConversationLockStep.step lockDemoG5 "conversation1" lockDemo6
      (LockStep.enter (lockDemoG5 "conversation1") 1 (by decide) (by decide) (by
        intro j hj
        have hj0 : j = 0 := by omega
        subst hj0
        decide)))
  exact Relation.ReflTransGen.refl

/-- Witness for C3 at the concrete reachable run `lockDemoFinal`: holder 0 threw
and released, holder 1 is in its critical section, and mutual exclusion holds. -/
theorem acquireConversationLock_mutex_fifo_witness :
    ReachableLocks lockDemoFinal ∧
    (lockDemoFinal "conversation1").errored 0 = true ∧
    (lockDemoFinal "conversation1").inCriticalSection 1 ∧
    (∀ j k, (lockDemoFinal "conversation1").inCriticalSection j →
      (lockDemoFinal "conversation1").inCriticalSection k → j = k) :=
  ⟨lockDemoFinal_reachable, by decide,
    ⟨by decide, by decide⟩,
    (acquireConversationLock_mutex_fifo lockDemoFinal lockDemoFinal_reachable
      "conversation1").1⟩

end CarbonChat
